import Mathlib

/-!
# go-chatgpt: request validation, client construction, pagination options and
# the transport adapter

A shallow embedding of the Go package `chatgpt` (files `client.go`,
`options.go`, `file.go`, `chat_test.go`) together with the properties its
specification states about it.

Conventions of the embedding:

* a Go `string` is a Lean `String`; a Go `int` is an `Int`;
* a Go `float64` request field is a rational number (only order comparisons
  against the constants `0`, `2` and `-2` are made on it);
* a Go pointer `*T` is an `Option T` (`none` is `nil`);
* a Go `error` value is an `Option GoError` (`none` is `nil`);
* a run-time panic (nil pointer dereference) is `Except.error`.
-/

namespace Chatgpt

/-! ## Errors (`client.go`) -/

/-- Error values of the package: the seven sentinels declared in `client.go`,
the error built by `fmt.Errorf` in `sendRequest`, and the errors handed back by
the two library calls `http.Client.Do` and `json.Decoder.Decode`. -/
inductive GoError where
  | ErrAPIKeyRequired
  | ErrInvalidModel
  | ErrNoMessages
  | ErrInvalidRole
  | ErrInvalidTemperature
  | ErrInvalidPresencePenalty
  | ErrInvalidFrequencyPenalty
  | errorf (msg : String)
  | transportFailure (msg : String)
  | decodeFailure (msg : String)
  deriving DecidableEq, Repr

open GoError

/-! ## Chat-completion requests and `validate` -/

abbrev ChatGPTModel := String

abbrev ChatGPTModelRole := String

/-- Role names, as listed by the message of `ErrInvalidRole` in `client.go`. -/
def ChatGPTModelRoleUser : ChatGPTModelRole := "user"

def ChatGPTModelRoleSystem : ChatGPTModelRole := "system"

def ChatGPTModelRoleAssistant : ChatGPTModelRole := "assistant"

structure ChatMessage where
  Role : ChatGPTModelRole
  Content : String
  deriving DecidableEq, Repr

/-- The request fields that `validate` reads (the fields the table of
`TestValidate` sets). The zero value of every field is the Go zero value. -/
structure ChatCompletionRequest where
  Model : ChatGPTModel := ""
  Messages : List ChatMessage := []
  Temperature : ℚ := 0
  PresencePenalty : ℚ := 0
  FrequencyPenalty : ℚ := 0
  deriving DecidableEq

/-- A role is accepted when it is one of `user`, `system`, `assistant`. -/
def roleAllowed (r : ChatGPTModelRole) : Bool :=
  r == ChatGPTModelRoleUser || r == ChatGPTModelRoleSystem || r == ChatGPTModelRoleAssistant

/-- The loop over the messages: the first message with a role that is not
accepted ends the loop with `ErrInvalidRole`. -/
def checkRoles : List ChatMessage → Option GoError
  | [] => none
  | m :: rest => if roleAllowed m.Role then checkRoles rest else some ErrInvalidRole

/-- Modelled from the spec: `validate` of `chat.go`, a file that is not among
the sources (only its test `TestValidate` and the sentinels in `client.go`
are). The six checks and their sentinels are those of section 4.1 of the
specification; the set of supported model names, declared in the missing
file, is the parameter `allowedModels`. The specification lists the model
check first, but the case "No messages" of `TestValidate` requires
`validate(&ChatCompletionRequest{})` to be `ErrNoMessages`, so the emptiness
check on the messages is placed before the model check, as the test demands
(see `validateSpecOrder` for the order as listed). -/
def validate (allowedModels : List ChatGPTModel) (req : ChatCompletionRequest) :
    Option GoError :=
  if req.Messages.length = 0 then some ErrNoMessages
  else if ¬ (req.Model ∈ allowedModels) then some ErrInvalidModel
  else match checkRoles req.Messages with
    | some e => some e
    | none =>
      if req.Temperature < 0 ∨ req.Temperature > 2 then some ErrInvalidTemperature
      else if req.PresencePenalty < -2 ∨ req.PresencePenalty > 2 then
        some ErrInvalidPresencePenalty
      else if req.FrequencyPenalty < -2 ∨ req.FrequencyPenalty > 2 then
        some ErrInvalidFrequencyPenalty
      else none

/-- Modelled from the spec: the same six checks in the order in which section
4.1 of the specification lists them (model first, then messages), for
comparison with `validate`. -/
def validateSpecOrder (allowedModels : List ChatGPTModel) (req : ChatCompletionRequest) :
    Option GoError :=
  if ¬ (req.Model ∈ allowedModels) then some ErrInvalidModel
  else if req.Messages.length = 0 then some ErrNoMessages
  else match checkRoles req.Messages with
    | some e => some e
    | none =>
      if req.Temperature < 0 ∨ req.Temperature > 2 then some ErrInvalidTemperature
      else if req.PresencePenalty < -2 ∨ req.PresencePenalty > 2 then
        some ErrInvalidPresencePenalty
      else if req.FrequencyPenalty < -2 ∨ req.FrequencyPenalty > 2 then
        some ErrInvalidFrequencyPenalty
      else none

/-! ### The table of `TestValidate` (`chat_test.go`) -/

/-- Modelled from the spec: the constant `GPT35Turbo` of the missing file
`chat.go`, the model name used by every accepted request of the tests. -/
def GPT35Turbo : ChatGPTModel := "gpt-3.5-turbo"

/-- The function `validRequest` of `chat_test.go`. -/
def validRequest : ChatCompletionRequest :=
  { Model := GPT35Turbo, Messages := [{ Role := ChatGPTModelRoleUser, Content := "Hello" }] }

/-- The seven rows of the table of `TestValidate`: request and expected
error. -/
def testValidateTable : List (ChatCompletionRequest × Option GoError) :=
  [ (validRequest, none),
    ({ Model := "invalid-model", Messages := validRequest.Messages }, some ErrInvalidModel),
    ({}, some ErrNoMessages),
    ({ Model := GPT35Turbo, Messages := [{ Role := "invalid-role", Content := "Hello" }] },
      some ErrInvalidRole),
    ({ Model := GPT35Turbo, Messages := validRequest.Messages, Temperature := -1/2 },
      some ErrInvalidTemperature),
    ({ Model := GPT35Turbo, Messages := validRequest.Messages, PresencePenalty := -3 },
      some ErrInvalidPresencePenalty),
    ({ Model := GPT35Turbo, Messages := validRequest.Messages, FrequencyPenalty := -3 },
      some ErrInvalidFrequencyPenalty) ]

/-- The six constraints of a request, as propositions. -/
def modelSupported (allowedModels : List ChatGPTModel) (req : ChatCompletionRequest) : Prop :=
  req.Model ∈ allowedModels

def messagesNonEmpty (req : ChatCompletionRequest) : Prop :=
  req.Messages ≠ []

def rolesValid (req : ChatCompletionRequest) : Prop :=
  ∀ m ∈ req.Messages,
    m.Role = ChatGPTModelRoleSystem ∨ m.Role = ChatGPTModelRoleUser ∨
      m.Role = ChatGPTModelRoleAssistant

def temperatureInRange (req : ChatCompletionRequest) : Prop :=
  0 ≤ req.Temperature ∧ req.Temperature ≤ 2

def presenceInRange (req : ChatCompletionRequest) : Prop :=
  -2 ≤ req.PresencePenalty ∧ req.PresencePenalty ≤ 2

def frequencyInRange (req : ChatCompletionRequest) : Prop :=
  -2 ≤ req.FrequencyPenalty ∧ req.FrequencyPenalty ≤ 2

instance (a : List ChatGPTModel) (r : ChatCompletionRequest) : Decidable (modelSupported a r) := by
  unfold modelSupported; infer_instance

instance (r : ChatCompletionRequest) : Decidable (messagesNonEmpty r) := by
  unfold messagesNonEmpty; infer_instance

instance (r : ChatCompletionRequest) : Decidable (rolesValid r) := by
  unfold rolesValid; infer_instance

instance (r : ChatCompletionRequest) : Decidable (temperatureInRange r) := by
  unfold temperatureInRange; infer_instance

instance (r : ChatCompletionRequest) : Decidable (presenceInRange r) := by
  unfold presenceInRange; infer_instance

instance (r : ChatCompletionRequest) : Decidable (frequencyInRange r) := by
  unfold frequencyInRange; infer_instance

/-- The sentinel of the first violated check, the checks taken in the order
messages, model, roles, temperature, presence penalty, frequency penalty. -/
def firstViolation (allowedModels : List ChatGPTModel) (req : ChatCompletionRequest) :
    Option GoError :=
  if ¬ messagesNonEmpty req then some ErrNoMessages
  else if ¬ modelSupported allowedModels req then some ErrInvalidModel
  else if ¬ rolesValid req then some ErrInvalidRole
  else if ¬ temperatureInRange req then some ErrInvalidTemperature
  else if ¬ presenceInRange req then some ErrInvalidPresencePenalty
  else if ¬ frequencyInRange req then some ErrInvalidFrequencyPenalty
  else none

/-! ## Client construction (`client.go`) -/

def apiURL : String := "https://api.openai.com/v1"

structure Config where
  BaseURL : String := ""
  APIKey : String := ""
  OrganizationID : String := ""
  deriving DecidableEq, Repr

/-- The value `http.Client{}`: the HTTP client of the standard library with all
its fields at their zero value. What it does with a request is the parameter
`Do` of `sendRequest`. -/
structure HTTPClient where
  deriving DecidableEq, Repr

/-- The struct `Client`. Both constructors store a non-nil `config`. -/
structure Client where
  client : HTTPClient
  config : Config
  deriving DecidableEq, Repr

/-- Run-time panics of the embedded code. -/
inductive Panic where
  | nilPointerDereference
  deriving DecidableEq, Repr

deriving instance DecidableEq for Except

/-- The function `NewClient`: the Go result pair `(*Client, error)`. -/
def NewClient (apikey : String) : Option Client × Option GoError :=
  if apikey = "" then (none, some ErrAPIKeyRequired)
  else (some { client := {}, config := { BaseURL := apiURL, APIKey := apikey } }, none)

/-- The function `NewClientWithConfig`; its argument is a pointer, and reading
`config.APIKey` through a nil pointer panics. -/
def NewClientWithConfig (config : Option Config) :
    Except Panic (Option Client × Option GoError) :=
  match config with
  | none => .error Panic.nilPointerDereference
  | some cfg =>
    if cfg.APIKey = "" then .ok (none, some ErrAPIKeyRequired)
    else .ok (some { client := {}, config := cfg }, none)

/-! ## Pagination options (`options.go`) and the library calls they make -/

/-- The bytes of a Go string (strings are taken to be valid UTF-8). -/
def goBytes (s : String) : List Nat :=
  (s.data.flatMap String.utf8EncodeChar).map UInt8.toNat

/-- Bytewise lexicographic order, the order of Go strings. -/
def bytesLe : List Nat → List Nat → Bool
  | [], _ => true
  | _ :: _, [] => false
  | a :: as, b :: bs => if a < b then true else if b < a then false else bytesLe as bs

def goStringLe (a b : String) : Bool := bytesLe (goBytes a) (goBytes b)

/-- The table `upperhex` of `net/url`. -/
def upperhex : List Char := "0123456789ABCDEF".data

def hexDigit (n : Nat) : Char := upperhex.getD n '0'

/-- The function `shouldEscape` of `net/url` in mode `encodeQueryComponent`:
letters, digits and the marks `-`, `_`, `.`, `~` are kept, every other byte
is escaped. -/
def shouldEscape (c : Nat) : Bool :=
  if ('a'.toNat ≤ c ∧ c ≤ 'z'.toNat) ∨ ('A'.toNat ≤ c ∧ c ≤ 'Z'.toNat) ∨
      ('0'.toNat ≤ c ∧ c ≤ '9'.toNat) then false
  else if c = '-'.toNat ∨ c = '_'.toNat ∨ c = '.'.toNat ∨ c = '~'.toNat then false
  else true

/-- One byte of the output of `escape`: a space becomes `+`, an escaped byte
becomes `%XX`, any other byte is copied. -/
def escapeByte (c : Nat) : List Char :=
  if shouldEscape c then
    if c = ' '.toNat then ['+'] else ['%', hexDigit (c / 16), hexDigit (c % 16)]
  else [Char.ofNat c]

/-- The function `url.QueryEscape`. -/
def QueryEscape (s : String) : String :=
  String.mk ((goBytes s).flatMap escapeByte)

/-- The function `strconv.Itoa`. -/
def Itoa (i : Int) : String := toString i

/-- The characters of a decimal rendering. -/
def decimalChars : List Char := ['0', '1', '2', '3', '4', '5', '6', '7', '8', '9', '-']

/-- The type `url.Values`, a map from keys to lists of values, as an
association list in which every key occurs once. -/
abbrev Values := List (String × List String)

/-- The lookup `v[key]`: the empty list when the key is absent. -/
def Values.index (v : Values) (key : String) : List String :=
  match v with
  | [] => []
  | (k, vs) :: rest => if k = key then vs else Values.index rest key

/-- The method `Values.Add`: `v[key] = append(v[key], value)`. -/
def Values.Add (v : Values) (key value : String) : Values :=
  match v with
  | [] => [(key, [value])]
  | (k, vs) :: rest =>
    if k = key then (k, vs ++ [value]) :: rest else (k, vs) :: Values.Add rest key value

def insertKey (k : String) : List String → List String
  | [] => [k]
  | x :: xs => if goStringLe k x then k :: x :: xs else x :: insertKey k xs

/-- The keys of the map in increasing order (`slices.Sorted(maps.Keys(v))`). -/
def sortedKeys (v : Values) : List String :=
  (v.map Prod.fst).foldr insertKey []

/-- The inner loop of `Values.Encode`: one `key=value` pair per value, with
`&` written first when the buffer is not empty. -/
def encodeKey (keyEscaped : String) (vs : List String) (buf : String) : String :=
  vs.foldl (fun b x =>
    (if b.utf8ByteSize > 0 then b ++ "&" else b) ++ keyEscaped ++ "=" ++ QueryEscape x) buf

/-- The method `Values.Encode`. -/
def Values.Encode (v : Values) : String :=
  if v.length = 0 then ""
  else (sortedKeys v).foldl (fun buf k => encodeKey (QueryEscape k) (Values.index v k) buf) ""

structure ListOptions where
  After : Option String := none
  Limit : Option Int := none
  deriving DecidableEq, Repr

/-- The method `ListOptions.Encode`. The receiver is a pointer. Both `if`
statements test `opts.After`; the second one dereferences `opts.Limit`. -/
def ListOptions.Encode (opts : Option ListOptions) : Except Panic String :=
  match opts with
  | none => .ok ""
  | some o =>
    let values : Values := []
    let values : Values :=
      match o.After with
      | some after => Values.Add values "after" after
      | none => values
    let values : Except Panic Values :=
      if o.After ≠ none then
        match o.Limit with
        | some limit => .ok (Values.Add values "limit" (Itoa limit))
        | none => .error Panic.nilPointerDereference
      else .ok values
    match values with
    | .error p => .error p
    | .ok values =>
      let e := Values.Encode values
      if e = "" then .ok e else .ok ("?" ++ e)

/-! ## The transport adapter (`client.go`) and the library calls it makes -/

/-- The type `http.Header`, a map from canonical keys to lists of values, as
an association list read at the first entry of a key. -/
abbrev Header := List (String × List String)

/-- The map read `h[key]` with its presence flag. -/
def Header.lookup (h : Header) (key : String) : Option (List String) :=
  match h with
  | [] => none
  | (k, vs) :: rest => if k = key then some vs else Header.lookup rest key

/-- The map write `h[key] = vs`. -/
def Header.assign (h : Header) (key : String) (vs : List String) : Header :=
  match h with
  | [] => [(key, vs)]
  | (k, old) :: rest =>
    if k = key then (k, vs) :: rest else (k, old) :: Header.assign rest key vs

/-- The characters allowed in a header field name (`validHeaderFieldByte` of
`net/textproto`): letters, digits and the marks of an RFC 7230 token. -/
def validHeaderFieldByte (c : Char) : Bool :=
  ('a' ≤ c && c ≤ 'z') || ('A' ≤ c && c ≤ 'Z') || ('0' ≤ c && c ≤ '9') ||
    "!#$%&\x27*+-.^_\x60|~".data.contains c

/-- The loop of `canonicalMIMEHeaderKey`: upper case for the first letter and
for a letter after a dash, lower case for the other letters. -/
def canonicalLoop : Bool → List Char → List Char
  | _, [] => []
  | upper, c :: cs =>
    let d :=
      if upper && ('a' ≤ c && c ≤ 'z') then Char.ofNat (c.toNat - 32)
      else if !upper && ('A' ≤ c && c ≤ 'Z') then Char.ofNat (c.toNat + 32)
      else c
    d :: canonicalLoop (d == '-') cs

/-- The function `textproto.CanonicalMIMEHeaderKey`: a key with a character
that is not allowed in a field name is returned unchanged. -/
def CanonicalMIMEHeaderKey (s : String) : String :=
  if s.data.all validHeaderFieldByte then String.mk (canonicalLoop true s.data) else s

/-- The method `Header.Get`: the first value of the canonical key, or the
empty string. -/
def Header.Get (h : Header) (key : String) : String :=
  match Header.lookup h (CanonicalMIMEHeaderKey key) with
  | some (v :: _) => v
  | _ => ""

/-- The method `Header.Set`: the canonical key is bound to the single value. -/
def Header.Set (h : Header) (key value : String) : Header :=
  Header.assign h (CanonicalMIMEHeaderKey key) [value]

/-- The fields of `http.Request` that the package touches. `Header` is the
non-nil map that `http.NewRequest` allocates. -/
structure Request where
  Method : String
  URL : String
  Header : Header := []
  Body : Option String := none
  deriving DecidableEq, Repr

/-- The fields of `http.Response` that the package reads; `RequestURL` is
`res.Request.URL` as printed by the verb `%s`. -/
structure Response where
  StatusCode : Int
  Body : String
  RequestURL : String
  deriving DecidableEq, Repr

/-- JSON values, as `encoding/json` scans them. -/
inductive JSON where
  | null
  | bool (b : Bool)
  | number (literal : String)
  | string (s : String)
  | array (items : List JSON)
  | object (members : List (String × JSON))

/-- The name of the kind of a JSON value in an `UnmarshalTypeError`. -/
def JSON.kind : JSON → String
  | .null => "null"
  | .bool _ => "bool"
  | .number _ => "number"
  | .string _ => "string"
  | .array _ => "array"
  | .object _ => "object"

/-- The inner struct of `apiError` (its field `Type` is written `Type_`); the
fields of type `any` hold a JSON value or nil. -/
structure apiErrorBody where
  Message : String := ""
  Type_ : String := ""
  Param : Option JSON := none
  Code : Option JSON := none

/-- The struct `apiError`. -/
structure apiError where
  Error : apiErrorBody := {}

/-- Case folding of member names (`foldName` of `encoding/json`), on the names
that can meet an ASCII field name: ASCII letters, the long s and the Kelvin
sign. -/
def foldName (s : String) : String :=
  String.mk (s.data.map fun c =>
    if 'a' ≤ c && c ≤ 'z' then Char.ofNat (c.toNat - 32)
    else if c.toNat = 0x17F then 'S'
    else if c.toNat = 0x212A then 'K'
    else c)

/-- A member name selects a field when it equals the field name exactly or up
to case folding. -/
def nameMatches (field key : String) : Bool :=
  key == field || foldName key == foldName field

/-- The state of a decode: the first type error met is kept
(`decodeState.saveError`), the decode goes on. -/
def saveError (saved : Option GoError) (e : GoError) : Option GoError :=
  match saved with
  | some old => some old
  | none => some e

/-- The name that the package `reflect` prints for the type of the field
`Error` of `apiError`, an anonymous struct: fields with their types and their
quoted tags, `any` printed as `interface {}`. -/
def apiErrorBodyType : String :=
  "struct \x7b Message string \"json:\\\"message\\\"\"; Type string \"json:\\\"type\\\"\"; " ++
  "Param interface \x7b\x7d \"json:\\\"param\\\"\"; Code interface \x7b\x7d \"json:\\\"code\\\"\" \x7d"

/-- Decoding a JSON value into a field of type `string`; `field` is the path
of the field as an `UnmarshalTypeError` prints it. -/
def decodeString (field : String) (v : JSON) (cur : String) (saved : Option GoError) :
    String × Option GoError :=
  match v with
  | .string s => (s, saved)
  | .null => (cur, saved)
  | other =>
    (cur, saveError saved (decodeFailure
      ("json: cannot unmarshal " ++ other.kind ++ " into Go struct field " ++ field ++
        " of type string")))

/-- Decoding a JSON value into a field of type `any`. -/
def decodeAny (v : JSON) : Option JSON :=
  match v with
  | .null => none
  | other => some other

/-- One member of the object decoded into the inner struct. That struct is
anonymous, so a type error on one of its fields names it by the path alone
(`.error.message`, `.error.type`). -/
def decodeBodyMember (st : apiErrorBody × Option GoError) (kv : String × JSON) :
    apiErrorBody × Option GoError :=
  if nameMatches "message" kv.1 then
    let r := decodeString ".error.message" kv.2 st.1.Message st.2
    ({ st.1 with Message := r.1 }, r.2)
  else if nameMatches "type" kv.1 then
    let r := decodeString ".error.type" kv.2 st.1.Type_ st.2
    ({ st.1 with Type_ := r.1 }, r.2)
  else if nameMatches "param" kv.1 then ({ st.1 with Param := decodeAny kv.2 }, st.2)
  else if nameMatches "code" kv.1 then ({ st.1 with Code := decodeAny kv.2 }, st.2)
  else st

/-- Decoding a JSON value into the field `Error`, a struct: an object fills the
fields member by member, `null` changes nothing, any other value is a type
error whose text ends with the full type of the field. -/
def decodeBody (v : JSON) (st : apiErrorBody × Option GoError) :
    apiErrorBody × Option GoError :=
  match v with
  | .object members => members.foldl decodeBodyMember st
  | .null => st
  | other =>
    (st.1, saveError st.2 (decodeFailure
      ("json: cannot unmarshal " ++ other.kind ++
        " into Go struct field apiError.error of type " ++ apiErrorBodyType)))

/-- One member of the top-level object. -/
def decodeTopMember (st : apiErrorBody × Option GoError) (kv : String × JSON) :
    apiErrorBody × Option GoError :=
  if nameMatches "error" kv.1 then decodeBody kv.2 st else st

/-- Unmarshalling a scanned JSON value into a zero `apiError`. -/
def unmarshalApiError (v : JSON) : Except GoError apiError :=
  let st : apiErrorBody × Option GoError :=
    match v with
    | .object members => members.foldl decodeTopMember ({}, none)
    | .null => ({}, none)
    | other =>
      ({}, some (decodeFailure
        ("json: cannot unmarshal " ++ other.kind ++ " into Go value of type chatgpt.apiError")))
  match st.2 with
  | some e => .error e
  | none => .ok { Error := st.1 }

/-- The call `json.NewDecoder(res.Body).Decode(&apiError)`: the scanner
(`scan`, a library call: a syntax error, or the first JSON value of the body)
followed by the unmarshalling of the value. -/
def decodeApiError (scan : String → Except GoError JSON) (body : String) :
    Except GoError apiError :=
  match scan body with
  | .error e => .error e
  | .ok v => unmarshalApiError v

/-- What a call of `sendRequest` does: the request it hands to
`c.client.Do`, and the Go result pair `(*http.Response, error)`. -/
structure SendResult where
  dispatched : Request
  res : Option Response
  err : Option GoError
  deriving DecidableEq, Repr

/-- The header writes that open `sendRequest`. -/
def sendRequestHeader (c : Client) (h : Header) : Header :=
  let h := Header.Set h "Authorization" ("Bearer " ++ c.config.APIKey)
  let h :=
    if c.config.OrganizationID ≠ "" then
      Header.Set h "OpenAI-Organization" c.config.OrganizationID
    else h
  let h :=
    if Header.Get h "Content-Type" = "" then Header.Set h "Content-Type" "application/json"
    else h
  Header.Set h "Accept" "application/json"

/-- The method `Client.sendRequest`. The two library calls are parameters:
`Do` is `http.Client.Do` (a transport failure or a response) and `scan` is the
JSON scanner of the decoder. -/
def sendRequest (Do : HTTPClient → Request → Except GoError Response)
    (scan : String → Except GoError JSON) (c : Client) (req : Request) : SendResult :=
  let req : Request := { req with Header := sendRequestHeader c req.Header }
  match Do c.client req with
  | .error err => { dispatched := req, res := none, err := some err }
  | .ok res =>
    if res.StatusCode ≠ 200 then
      match decodeApiError scan res.Body with
      | .error err => { dispatched := req, res := none, err := some err }
      | .ok apiError =>
        { dispatched := req, res := none,
          err := some (errorf
            ("api request failed: status Code: " ++ Itoa res.StatusCode ++ ", URL: " ++
              res.RequestURL ++ ", Error type: " ++ apiError.Error.Type_ ++ ", Message: " ++
              apiError.Error.Message)) }
    else { dispatched := req, res := some res, err := none }

/-! ## File upload (`file.go`) -/

abbrev FileStatus := String

abbrev FilePurpose := String

def FilePurposeFinetune : FilePurpose := "fine-tune"

structure File where
  ID : String := ""
  Object : String := ""
  Bytes : Int := 0
  CreatedAt : Int := 0
  Filename : String := ""
  Purpose : FilePurpose := ""
  Status : FileStatus := ""
  StatusDetails : String := ""
  deriving DecidableEq, Repr

/-- The call `http.NewRequest(method, url, nil)` for a valid method: it fails
when the URL does not parse (`urlParse`, a library call, gives the error) and
otherwise returns a request with an empty, non-nil header and no body. -/
def NewRequest (urlParse : String → Option GoError) (method url : String) :
    Except GoError Request :=
  match urlParse url with
  | some err => .error err
  | none => .ok { Method := method, URL := url, Header := [], Body := none }

/-- The bytes that the `multipart.Writer` of `UploadFile` writes: the field
`purpose`, the form file `file` named `mydata.jsonl`, the closing line. -/
def multipartBody (boundary : String) (purpose : FilePurpose) (content : String) : String :=
  "--" ++ boundary ++ "\r\n" ++
  "Content-Disposition: form-data; name=\"purpose\"\r\n\r\n" ++ purpose ++
  "\r\n--" ++ boundary ++ "\r\n" ++
  "Content-Disposition: form-data; name=\"file\"; filename=\"mydata.jsonl\"\r\n" ++
  "Content-Type: application/octet-stream\r\n\r\n" ++ content ++
  "\r\n--" ++ boundary ++ "--\r\n"

/-- The method `multipart.Writer.FormDataContentType` for a boundary that
needs no quoting. -/
def FormDataContentType (boundary : String) : String :=
  "multipart/form-data; boundary=" ++ boundary

/-- What a call of `UploadFile` does: the request that reached `c.client.Do`,
if any, and the Go result pair `(*File, error)`. -/
structure UploadResult where
  dispatched : Option Request
  file : Option File
  err : Option GoError
  deriving DecidableEq, Repr

/-- The method `Client.UploadFile`. Besides the parameters of `sendRequest`,
the library calls are `urlParse` (inside `http.NewRequest`), `decodeFile` (the
JSON decode of the response body into a `File`), the boundary chosen by
`multipart.NewWriter`, and the reader `file`, given by what `io.Copy` gets
from it (a read error or the content). -/
def UploadFile (Do : HTTPClient → Request → Except GoError Response)
    (scan : String → Except GoError JSON) (urlParse : String → Option GoError)
    (decodeFile : String → Except GoError File) (boundary : String)
    (c : Client) (file : Except GoError String) (purpose : FilePurpose) :
    Except Panic UploadResult :=
  let endpoint := "/files"
  match NewRequest urlParse "POST" (c.config.BaseURL ++ endpoint) with
  | .error err => .ok { dispatched := none, file := none, err := some err }
  | .ok httpReq =>
    match file with
    | .error err => .ok { dispatched := none, file := none, err := some err }
    | .ok content =>
      let httpReq : Request :=
        { httpReq with Body := some (multipartBody boundary purpose content) }
      let r := sendRequest Do scan c httpReq
      match r.err with
      | some err => .ok { dispatched := some r.dispatched, file := none, err := some err }
      | none =>
        match r.res with
        | none => .error Panic.nilPointerDereference
        | some res =>
          match decodeFile res.Body with
          | .error err => .ok { dispatched := some r.dispatched, file := none, err := some err }
          | .ok responseFile =>
            .ok { dispatched := some r.dispatched, file := some responseFile, err := none }

/-! ## Fixtures of `chat_test.go` -/

/-- The client that the helpers of `chat_test.go` build, the base URL of the
test server being `baseURL`. -/
def testClient (baseURL : String) : Client :=
  { client := {},
    config := { BaseURL := baseURL, APIKey := "mock_api_key",
                OrganizationID := "mock_organization_id" } }

/-- The body served by `newTestClientWithInvalidStatusCode`. -/
def invalidStatusBody : String := "\x7b \"error\": \"bad request\" \x7d"

/-- The JSON value of `invalidStatusBody`. -/
def invalidStatusJSON : JSON := .object [("error", .string "bad request")]

/-- A server answering every request with status `status` and body `body`. -/
def serverDo (status : Int) (body : String) : HTTPClient → Request → Except GoError Response :=
  fun _ req => .ok { StatusCode := status, Body := body, RequestURL := req.URL }

/-- The body of a well-formed error answer. -/
def wellFormedErrorBody : String :=
  "\x7b\"error\": \x7b\"message\": \"no such model\", \"type\": \"invalid_request_error\", \"param\": null, \"code\": 404\x7d\x7d"

/-- A scanner that knows `invalidStatusBody` and one well-formed error body,
and reports a syntax error on any other text. -/
def fixtureScan : String → Except GoError JSON :=
  fun body =>
    if body = invalidStatusBody then .ok invalidStatusJSON
    else if body = wellFormedErrorBody then
      .ok (.object [("error", .object [("message", .string "no such model"),
        ("type", .string "invalid_request_error"), ("param", .null),
        ("code", .number "404")])])
    else .error (decodeFailure "invalid character")

/-- A prepared request that already carries three headers. -/
def preparedRequest : Request :=
  { Method := "POST", URL := "http://localhost/v1/files",
    Header := [("Content-Type", ["multipart/form-data; boundary=b"]), ("X-Trace", ["1"]),
      ("Authorization", ["Bearer old"])],
    Body := some "payload" }

/-- A prepared request with no header, as `http.NewRequest` returns it. -/
def bareRequest : Request :=
  { Method := "GET", URL := "http://localhost/v1/files" }

/-! # Properties -/

/-! ### Lemmas on `validate` -/

theorem roleAllowed_iff (r : ChatGPTModelRole) :
    roleAllowed r = true ↔
      (r = ChatGPTModelRoleSystem ∨ r = ChatGPTModelRoleUser ∨ r = ChatGPTModelRoleAssistant) := by
  simp only [roleAllowed, Bool.or_eq_true, beq_iff_eq]
  tauto

theorem checkRoles_eq (msgs : List ChatMessage) :
    checkRoles msgs =
      if (∀ m ∈ msgs, m.Role = ChatGPTModelRoleSystem ∨ m.Role = ChatGPTModelRoleUser ∨
        m.Role = ChatGPTModelRoleAssistant) then none else some ErrInvalidRole := by
  induction msgs with
  | nil => simp [checkRoles]
  | cons m rest ih =>
    by_cases h : roleAllowed m.Role = true
    · have h2 := (roleAllowed_iff m.Role).1 h
      simp only [checkRoles, h, if_true, ih, List.forall_mem_cons, h2, true_and]
    · have h2 : ¬ (m.Role = ChatGPTModelRoleSystem ∨ m.Role = ChatGPTModelRoleUser ∨
          m.Role = ChatGPTModelRoleAssistant) := fun c => h ((roleAllowed_iff m.Role).2 c)
      simp only [checkRoles, h, List.forall_mem_cons, h2, false_and, if_false]
      rfl

theorem validate_eq_firstViolation (allowedModels : List ChatGPTModel)
    (req : ChatCompletionRequest) :
    validate allowedModels req = firstViolation allowedModels req := by
  unfold validate firstViolation messagesNonEmpty modelSupported rolesValid temperatureInRange
    presenceInRange frequencyInRange
  rw [checkRoles_eq]
  simp only [List.length_eq_zero, not_not, not_and_or, not_le, gt_iff_lt]
  split_ifs <;> rfl

/-- The table of `TestValidate` holds of `validate` for every set of supported
models that contains `GPT35Turbo` and neither `invalid-model` nor the empty
name. -/
theorem validate_passes_TestValidate (allowedModels : List ChatGPTModel)
    (hG : GPT35Turbo ∈ allowedModels) (hI : "invalid-model" ∉ allowedModels) :
    ∀ row ∈ testValidateTable, validate allowedModels row.1 = row.2 := by
  intro row hrow
  simp only [testValidateTable, List.mem_cons, List.mem_singleton, List.not_mem_nil,
    or_false] at hrow
  rcases hrow with h | h | h | h | h | h | h <;> subst h <;>
    first
    | (simp +decide [validate, validRequest, checkRoles, roleAllowed, hG, hI,
        ChatGPTModelRoleUser, ChatGPTModelRoleSystem, ChatGPTModelRoleAssistant]; done)
    | (simp +decide [validate, validRequest, checkRoles, roleAllowed, hG, hI,
        ChatGPTModelRoleUser, ChatGPTModelRoleSystem, ChatGPTModelRoleAssistant]; norm_num)

/-- With the checks in the order in which the specification lists them, the
row "No messages" of `TestValidate` fails as soon as the empty name is not a
supported model. -/
theorem validateSpecOrder_fails_TestValidate (allowedModels : List ChatGPTModel)
    (hE : "" ∉ allowedModels) :
    ∃ row ∈ testValidateTable, validateSpecOrder allowedModels row.1 ≠ row.2 := by
  refine ⟨(({} : ChatCompletionRequest), some ErrNoMessages), ?_, ?_⟩
  · simp [testValidateTable]
  · simp [validateSpecOrder, hE]

/-- C1: `validate` returns no error if and only if the model is supported, the
message list is non-empty, every role is system, user or assistant, the
temperature lies in [0, 2] and both penalties lie in [-2, 2]; and a request
that violates exactly one of the six constraints gets the sentinel of that
constraint. -/
theorem validate_accepts_iff_and_single_violation (allowedModels : List ChatGPTModel)
    (req : ChatCompletionRequest) :
    (validate allowedModels req = none ↔
      (modelSupported allowedModels req ∧ messagesNonEmpty req ∧ rolesValid req ∧
        temperatureInRange req ∧ presenceInRange req ∧ frequencyInRange req)) ∧
    ((¬ modelSupported allowedModels req ∧ messagesNonEmpty req ∧ rolesValid req ∧
        temperatureInRange req ∧ presenceInRange req ∧ frequencyInRange req) →
      validate allowedModels req = some ErrInvalidModel) ∧
    ((modelSupported allowedModels req ∧ ¬ messagesNonEmpty req ∧ rolesValid req ∧
        temperatureInRange req ∧ presenceInRange req ∧ frequencyInRange req) →
      validate allowedModels req = some ErrNoMessages) ∧
    ((modelSupported allowedModels req ∧ messagesNonEmpty req ∧ ¬ rolesValid req ∧
        temperatureInRange req ∧ presenceInRange req ∧ frequencyInRange req) →
      validate allowedModels req = some ErrInvalidRole) ∧
    ((modelSupported allowedModels req ∧ messagesNonEmpty req ∧ rolesValid req ∧
        ¬ temperatureInRange req ∧ presenceInRange req ∧ frequencyInRange req) →
      validate allowedModels req = some ErrInvalidTemperature) ∧
    ((modelSupported allowedModels req ∧ messagesNonEmpty req ∧ rolesValid req ∧
        temperatureInRange req ∧ ¬ presenceInRange req ∧ frequencyInRange req) →
      validate allowedModels req = some ErrInvalidPresencePenalty) ∧
    ((modelSupported allowedModels req ∧ messagesNonEmpty req ∧ rolesValid req ∧
        temperatureInRange req ∧ presenceInRange req ∧ ¬ frequencyInRange req) →
      validate allowedModels req = some ErrInvalidFrequencyPenalty) := by
  rw [validate_eq_firstViolation]
  unfold firstViolation
  refine ⟨?_, ?_, ?_, ?_, ?_, ?_, ?_⟩
  · split_ifs <;> simp_all
  all_goals
    rintro ⟨h1, h2, h3, h4, h5, h6⟩
    simp [h1, h2, h3, h4, h5, h6]

/-- C1, at concrete requests: the canonical valid request is accepted, and a
request whose only violated constraint is the temperature gets
`ErrInvalidTemperature`. -/
theorem validate_accepts_iff_and_single_violation_witness :
    validate [GPT35Turbo] validRequest = none ∧
    validate [GPT35Turbo] { validRequest with Temperature := 5 / 2 } =
      some ErrInvalidTemperature :=
  ⟨(validate_accepts_iff_and_single_violation [GPT35Turbo] validRequest).1.2
      (by simp +decide [modelSupported, messagesNonEmpty, rolesValid, temperatureInRange,
        presenceInRange, frequencyInRange, validRequest]),
   (validate_accepts_iff_and_single_violation [GPT35Turbo]
      { validRequest with Temperature := 5 / 2 }).2.2.2.2.1
      (by
        simp +decide [modelSupported, messagesNonEmpty, rolesValid, temperatureInRange,
          presenceInRange, frequencyInRange, validRequest]
        norm_num)⟩

/-- C2 as stated fails: the zero-value request has an unsupported model and no
messages, and `validate` answers `ErrNoMessages`, not `ErrInvalidModel` (the
row "No messages" of `TestValidate`). -/
theorem validate_zero_value_not_ErrInvalidModel :
    ¬ modelSupported [GPT35Turbo] {} ∧ ¬ messagesNonEmpty {} ∧
    validate [GPT35Turbo] {} = some ErrNoMessages ∧
    validate [GPT35Turbo] {} ≠ some ErrInvalidModel := by
  decide

/-- C2, amended: `validate` returns the sentinel of the earliest violated check
in the order messages non-empty, model, roles, temperature, presence penalty,
frequency penalty; in particular a request with an empty message list gets
`ErrNoMessages` whatever its model, and a request with a supported model, a
bad role and an out-of-range temperature gets `ErrInvalidRole`. -/
theorem validate_reports_first_violation (allowedModels : List ChatGPTModel)
    (req : ChatCompletionRequest) :
    validate allowedModels req =
      (if ¬ messagesNonEmpty req then some ErrNoMessages
       else if ¬ modelSupported allowedModels req then some ErrInvalidModel
       else if ¬ rolesValid req then some ErrInvalidRole
       else if ¬ temperatureInRange req then some ErrInvalidTemperature
       else if ¬ presenceInRange req then some ErrInvalidPresencePenalty
       else if ¬ frequencyInRange req then some ErrInvalidFrequencyPenalty
       else none) ∧
    (¬ messagesNonEmpty req → validate allowedModels req = some ErrNoMessages) ∧
    ((messagesNonEmpty req ∧ modelSupported allowedModels req ∧ ¬ rolesValid req ∧
        ¬ temperatureInRange req) →
      validate allowedModels req = some ErrInvalidRole) := by
  rw [validate_eq_firstViolation]
  unfold firstViolation
  refine ⟨rfl, ?_, ?_⟩
  · intro h
    simp [h]
  · rintro ⟨h1, h2, h3, _⟩
    simp [h1, h2, h3]

/-- C2 amended, at concrete requests: the zero-value request gets
`ErrNoMessages`; a request with a bad role and temperature 3 gets
`ErrInvalidRole`. -/
theorem validate_reports_first_violation_witness :
    validate [GPT35Turbo] {} = some ErrNoMessages ∧
    validate [GPT35Turbo]
      { Model := GPT35Turbo, Messages := [{ Role := "invalid-role", Content := "Hello" }],
        Temperature := 3 } = some ErrInvalidRole :=
  ⟨(validate_reports_first_violation [GPT35Turbo] {}).2.1 (by decide),
   (validate_reports_first_violation [GPT35Turbo]
      { Model := GPT35Turbo, Messages := [{ Role := "invalid-role", Content := "Hello" }],
        Temperature := 3 }).2.2
      (by simp +decide [modelSupported, messagesNonEmpty, rolesValid, temperatureInRange])⟩

/-! ### Lemmas on the library calls of `ListOptions.Encode` -/

theorem digitChar_mem (n : Nat) : Nat.digitChar (n % 10) ∈ decimalChars := by
  have h : n % 10 < 10 := Nat.mod_lt _ (by decide)
  generalize n % 10 = k at h
  interval_cases k <;> decide

theorem toDigitsCore_mem (fuel : Nat) :
    ∀ (n : Nat) (ds : List Char), (∀ c ∈ ds, c ∈ decimalChars) →
      ∀ c ∈ Nat.toDigitsCore 10 fuel n ds, c ∈ decimalChars := by
  induction fuel with
  | zero => intro n ds h; simpa [Nat.toDigitsCore] using h
  | succ f ih =>
    intro n ds h
    have hcons : ∀ c ∈ Nat.digitChar (n % 10) :: ds, c ∈ decimalChars := by
      intro c hc
      rcases List.mem_cons.1 hc with rfl | hc
      · exact digitChar_mem n
      · exact h c hc
    unfold Nat.toDigitsCore
    by_cases hz : n / 10 = 0
    · simpa [hz] using hcons
    · simpa [hz] using ih (n / 10) _ hcons

theorem natRepr_mem (n : Nat) : ∀ c ∈ (Nat.repr n).data, c ∈ decimalChars := by
  simpa [Nat.repr, Nat.toDigits, List.asString] using
    toDigitsCore_mem (n + 1) n [] (by simp)

theorem Itoa_mem (i : Int) : ∀ c ∈ (Itoa i).data, c ∈ decimalChars := by
  cases i with
  | ofNat n => exact natRepr_mem n
  | negSucc n =>
    intro c hc
    have hd : (Itoa (Int.negSucc n)).data = '-' :: (Nat.repr (n + 1)).data := rfl
    rw [hd] at hc
    rcases List.mem_cons.1 hc with rfl | hc
    · decide
    · exact natRepr_mem _ c hc

theorem escape_decimalChar :
    ∀ c ∈ decimalChars,
      ((String.utf8EncodeChar c).map UInt8.toNat).flatMap escapeByte = [c] := by
  decide

theorem QueryEscape_of_decimalChars (cs : List Char) (h : ∀ c ∈ cs, c ∈ decimalChars) :
    QueryEscape (String.mk cs) = String.mk cs := by
  unfold QueryEscape goBytes
  congr 1
  induction cs with
  | nil => rfl
  | cons c rest ih =>
    have hc := escape_decimalChar c (h c (List.mem_cons_self _ _))
    have hr := ih (fun d hd => h d (List.mem_cons_of_mem _ hd))
    simp only [List.flatMap_cons, List.map_append, List.flatMap_append] at hr ⊢
    rw [hc, hr]
    rfl

/-- A decimal rendering is left unchanged by `QueryEscape`. -/
theorem QueryEscape_Itoa (i : Int) : QueryEscape (Itoa i) = Itoa i :=
  QueryEscape_of_decimalChars (Itoa i).data (Itoa_mem i)

theorem utf8ByteSize_pos_of_ne (s : String) (h : s.data ≠ []) : s.utf8ByteSize > 0 := by
  cases s with
  | mk cs =>
    rw [String.utf8ByteSize_mk]
    exact Nat.pos_of_ne_zero (fun h0 => h (String.utf8Len_eq_zero.1 h0))

/-- The query string built from an `after` and a `limit` value. -/
theorem Values_Encode_after_limit (a l : String) :
    Values.Encode (Values.Add (Values.Add [] "after" a) "limit" l) =
      "after=" ++ QueryEscape a ++ "&limit=" ++ QueryEscape l := by
  have hk : sortedKeys [("after", [a]), ("limit", [l])] = ["after", "limit"] := by
    show (["after", "limit"].foldr insertKey []) = ["after", "limit"]
    decide
  have h1 : QueryEscape "after" = "after" := by decide
  have h2 : QueryEscape "limit" = "limit" := by decide
  have hpos : (("" : String) ++ "after" ++ "=" ++ QueryEscape a).utf8ByteSize > 0 :=
    utf8ByteSize_pos_of_ne _ (by simp)
  have hadd : Values.Add (Values.Add [] "after" a) "limit" l =
      [("after", [a]), ("limit", [l])] := by
    simp +decide [Values.Add]
  rw [hadd]
  simp +decide only [Values.Encode, hk, List.foldl_cons, List.foldl_nil, Values.index, h1, h2,
    encodeKey, List.length_cons, List.length_nil, if_false, if_true, hpos]
  apply String.ext
  simp

set_option maxRecDepth 100000 in
theorem escapeByte_not_reserved :
    ∀ b, b < 256 → ∀ c ∈ escapeByte b, c ≠ '?' ∧ c ≠ '&' ∧ c ≠ '=' := by
  decide

/-- The output of `QueryEscape` contains none of `?`, `&`, `=`. -/
theorem QueryEscape_not_reserved (s : String) :
    ∀ c ∈ (QueryEscape s).data, c ≠ '?' ∧ c ≠ '&' ∧ c ≠ '=' := by
  intro c hc
  simp only [QueryEscape, goBytes, List.mem_flatMap, List.mem_map] at hc
  obtain ⟨b, ⟨u, _, rfl⟩, hcb⟩ := hc
  exact escapeByte_not_reserved u.toNat u.toNat_lt c hcb

/-- C3: client construction fails exactly when the API key is empty.
`NewClient` with an empty key returns `(nil, ErrAPIKeyRequired)` and with any
other key a client holding the default base URL and that key, with no error;
`NewClientWithConfig` on a configuration with an empty key returns
`(nil, ErrAPIKeyRequired)` whatever the base URL and organization id, and
otherwise a client holding that configuration, with no error. -/
theorem NewClient_fails_iff_empty_key (k : String) (cfg : Config) :
    (k = "" → NewClient k = (none, some ErrAPIKeyRequired)) ∧
    (k ≠ "" → NewClient k =
      (some { client := {}, config := { BaseURL := apiURL, APIKey := k, OrganizationID := "" } },
        none)) ∧
    ((NewClient k).2 ≠ none ↔ k = "") ∧
    (cfg.APIKey = "" → NewClientWithConfig (some cfg) = .ok (none, some ErrAPIKeyRequired)) ∧
    (cfg.APIKey ≠ "" →
      NewClientWithConfig (some cfg) = .ok (some { client := {}, config := cfg }, none)) ∧
    ((∃ c, NewClientWithConfig (some cfg) = .ok (c, some ErrAPIKeyRequired)) ↔
      cfg.APIKey = "") := by
  unfold NewClient NewClientWithConfig
  refine ⟨?_, ?_, ?_, ?_, ?_, ?_⟩
  · intro h; simp [h]
  · intro h; simp [h]
  · by_cases h : k = "" <;> simp [h]
  · intro h; simp [h]
  · intro h; simp [h]
  · by_cases h : cfg.APIKey = "" <;> simp [h]

/-- C3, at concrete inputs: the empty key is refused by both constructors (the
second one with a base URL and an organization id set), a non-empty key is
accepted by both. -/
theorem NewClient_fails_iff_empty_key_witness :
    NewClient "" = (none, some ErrAPIKeyRequired) ∧
    NewClient "sk-1" =
      (some { client := {}, config := { BaseURL := apiURL, APIKey := "sk-1" } }, none) ∧
    NewClientWithConfig (some { BaseURL := "http://localhost", OrganizationID := "org" }) =
      .ok (none, some ErrAPIKeyRequired) ∧
    NewClientWithConfig (some { BaseURL := "http://localhost", APIKey := "sk-1" }) =
      .ok (some { client := {}, config := { BaseURL := "http://localhost", APIKey := "sk-1" } },
        none) :=
  ⟨(NewClient_fails_iff_empty_key "" {}).1 rfl,
   (NewClient_fails_iff_empty_key "sk-1" {}).2.1 (by decide),
   (NewClient_fails_iff_empty_key ""
      { BaseURL := "http://localhost", OrganizationID := "org" }).2.2.2.1 rfl,
   (NewClient_fails_iff_empty_key ""
      { BaseURL := "http://localhost", APIKey := "sk-1" }).2.2.2.2.1 (by decide)⟩

/-- C4, the code at the failing input: with `After` set and `Limit` absent,
`ListOptions.Encode` dereferences the nil `Limit` and panics; no query string
is returned. -/
theorem ListOptions_Encode_after_only_panics (x : String) :
    ListOptions.Encode (some { After := some x, Limit := none }) =
      .error Panic.nilPointerDereference := by
  simp [ListOptions.Encode]

/-- C5: with `After = a` and `Limit = n` both set, `ListOptions.Encode` returns
exactly `?after=` followed by the query-escaped `a`, then `&limit=` and the
decimal rendering of `n`; neither the escaped `a` nor the rendering of `n`
contains a `?`, `&` or `=`, so each parameter occurs once behind the single
leading `?`. -/
theorem ListOptions_Encode_after_and_limit (a : String) (n : Int) :
    ListOptions.Encode (some { After := some a, Limit := some n }) =
      .ok ("?after=" ++ QueryEscape a ++ "&limit=" ++ Itoa n) ∧
    (∀ c ∈ (QueryEscape a).data, c ≠ '?' ∧ c ≠ '&' ∧ c ≠ '=') ∧
    (∀ c ∈ (Itoa n).data, c ≠ '?' ∧ c ≠ '&' ∧ c ≠ '=') := by
  refine ⟨?_, QueryEscape_not_reserved a, ?_⟩
  · have hne : ¬ ("after=" ++ QueryEscape a ++ "&limit=" ++ Itoa n = "") := by
      intro h
      have hd := congrArg String.data h
      simp at hd
    simp only [ListOptions.Encode, ne_eq, reduceCtorEq, not_false_eq_true, if_true,
      Values_Encode_after_limit, QueryEscape_Itoa, hne, if_false]
    congr 1
  · intro c hc
    rw [← QueryEscape_Itoa n] at hc
    exact QueryEscape_not_reserved _ c hc

/-- C6: `ListOptions.Encode` returns the empty string for a nil receiver and
for every receiver whose `After` is absent, whatever `Limit` holds: a `Limit`
given alone is dropped. -/
theorem ListOptions_Encode_without_after (limit : Option Int) :
    ListOptions.Encode none = .ok "" ∧
    ListOptions.Encode (some { After := none, Limit := limit }) = .ok "" := by
  constructor
  · rfl
  · simp [ListOptions.Encode, Values.Encode]

/-! ### Lemmas on headers and on `sendRequest` -/

theorem lookup_assign (h : Header) (key k : String) (vs : List String) :
    Header.lookup (Header.assign h key vs) k =
      if k = key then some vs else Header.lookup h k := by
  induction h with
  | nil =>
    simp only [Header.assign, Header.lookup]
    split_ifs <;> simp_all
  | cons p rest ih =>
    obtain ⟨k0, old⟩ := p
    by_cases h0 : k0 = key
    · subst h0
      by_cases hk : k = k0
      · subst hk
        simp [Header.assign, Header.lookup]
      · have hk2 : ¬ k0 = k := fun c => hk c.symm
        simp [Header.assign, Header.lookup, hk, hk2]
    · by_cases hk : k = key
      · subst hk
        simp [Header.assign, Header.lookup, h0, ih]
      · by_cases h1 : k0 = k
        · subst h1
          simp [Header.assign, Header.lookup, h0]
        · simp [Header.assign, Header.lookup, h0, h1, ih, hk]

theorem canonical_Authorization : CanonicalMIMEHeaderKey "Authorization" = "Authorization" := by
  decide

theorem canonical_Organization :
    CanonicalMIMEHeaderKey "OpenAI-Organization" = "Openai-Organization" := by
  decide

theorem canonical_ContentType : CanonicalMIMEHeaderKey "Content-Type" = "Content-Type" := by
  decide

theorem canonical_Accept : CanonicalMIMEHeaderKey "Accept" = "Accept" := by
  decide

/-- The map that `sendRequest` leaves in the request, key by key. -/
theorem lookup_sendRequestHeader (c : Client) (h : Header) (k : String) :
    Header.lookup (sendRequestHeader c h) k =
      if k = "Accept" then some ["application/json"]
      else if k = "Content-Type" then
        (if Header.Get h "Content-Type" = "" then some ["application/json"]
         else Header.lookup h "Content-Type")
      else if k = "Openai-Organization" then
        (if c.config.OrganizationID ≠ "" then some [c.config.OrganizationID]
         else Header.lookup h "Openai-Organization")
      else if k = "Authorization" then some ["Bearer " ++ c.config.APIKey]
      else Header.lookup h k := by
  have hget : ∀ h2 : Header,
      Header.lookup h2 "Content-Type" = Header.lookup h "Content-Type" →
      Header.Get h2 "Content-Type" = Header.Get h "Content-Type" := by
    intro h2 e
    simp only [Header.Get, canonical_ContentType, e]
  have e1 : Header.lookup (Header.Set h "Authorization" ("Bearer " ++ c.config.APIKey))
      "Content-Type" = Header.lookup h "Content-Type" := by
    simp +decide [Header.Set, lookup_assign, canonical_Authorization]
  unfold sendRequestHeader
  by_cases ho : c.config.OrganizationID = ""
  · simp only [ho, ne_eq, not_true_eq_false, if_false]
    rw [hget _ e1]
    by_cases hc : Header.Get h "Content-Type" = ""
    · simp only [hc, if_true, Header.Set, lookup_assign, canonical_Accept,
        canonical_ContentType, canonical_Authorization]
      split_ifs <;> simp_all +decide
    · simp only [hc, if_false, Header.Set, lookup_assign, canonical_Accept,
        canonical_Authorization]
      split_ifs <;> simp_all +decide
  · have e2 : Header.lookup (Header.Set (Header.Set h "Authorization"
        ("Bearer " ++ c.config.APIKey)) "OpenAI-Organization" c.config.OrganizationID)
        "Content-Type" = Header.lookup h "Content-Type" := by
      simp +decide [Header.Set, lookup_assign, canonical_Authorization, canonical_Organization]
    simp only [ho, ne_eq, not_false_eq_true, if_true]
    rw [hget _ e2]
    by_cases hc : Header.Get h "Content-Type" = ""
    · simp only [hc, if_true, Header.Set, lookup_assign, canonical_Accept,
        canonical_ContentType, canonical_Authorization, canonical_Organization]
    · simp only [hc, if_false, Header.Set, lookup_assign, canonical_Accept,
        canonical_Authorization, canonical_Organization]
      split_ifs <;> simp_all +decide

/-- The request handed to `c.client.Do` is the caller's request with the
header writes applied. -/
theorem sendRequest_dispatched (Do : HTTPClient → Request → Except GoError Response)
    (scan : String → Except GoError JSON) (c : Client) (req : Request) :
    (sendRequest Do scan c req).dispatched =
      { req with Header := sendRequestHeader c req.Header } := by
  unfold sendRequest
  dsimp only
  split
  · rfl
  · split_ifs
    · split <;> rfl
    · rfl

/-- The result pair of `sendRequest` holds a response or an error, never both
and never neither. -/
theorem sendRequest_res_xor_err (Do : HTTPClient → Request → Except GoError Response)
    (scan : String → Except GoError JSON) (c : Client) (req : Request) :
    ((sendRequest Do scan c req).res ≠ none ∧ (sendRequest Do scan c req).err = none) ∨
    ((sendRequest Do scan c req).res = none ∧ (sendRequest Do scan c req).err ≠ none) := by
  unfold sendRequest
  dsimp only
  split
  · simp
  · split_ifs
    · split <;> simp
    · simp

theorem Get_of_lookup (h : Header) (key canon v : String)
    (hc : CanonicalMIMEHeaderKey key = canon) (hl : Header.lookup h canon = some [v]) :
    Header.Get h key = v := by
  simp [Header.Get, hc, hl]

/-- C7: in the request that `sendRequest` dispatches, `Authorization` is
`Bearer ` followed by the API key, whatever it held before;
`OpenAI-Organization` is the organization id when that id is non-empty and is
otherwise as the caller left it; `Content-Type` is the value of the caller
when the caller set a non-empty one and `application/json` otherwise; `Accept`
is `application/json`; every other header, and the method, URL and body, are
unchanged. -/
theorem sendRequest_sets_headers (Do : HTTPClient → Request → Except GoError Response)
    (scan : String → Except GoError JSON) (c : Client) (req : Request) :
    Header.lookup (sendRequest Do scan c req).dispatched.Header "Authorization" =
      some ["Bearer " ++ c.config.APIKey] ∧
    Header.Get (sendRequest Do scan c req).dispatched.Header "Authorization" =
      "Bearer " ++ c.config.APIKey ∧
    (c.config.OrganizationID ≠ "" →
      Header.Get (sendRequest Do scan c req).dispatched.Header "OpenAI-Organization" =
        c.config.OrganizationID) ∧
    (c.config.OrganizationID = "" →
      Header.lookup (sendRequest Do scan c req).dispatched.Header "Openai-Organization" =
          Header.lookup req.Header "Openai-Organization" ∧
      Header.Get (sendRequest Do scan c req).dispatched.Header "OpenAI-Organization" =
          Header.Get req.Header "OpenAI-Organization") ∧
    (Header.Get req.Header "Content-Type" ≠ "" →
      Header.lookup (sendRequest Do scan c req).dispatched.Header "Content-Type" =
          Header.lookup req.Header "Content-Type" ∧
      Header.Get (sendRequest Do scan c req).dispatched.Header "Content-Type" =
          Header.Get req.Header "Content-Type") ∧
    (Header.Get req.Header "Content-Type" = "" →
      Header.Get (sendRequest Do scan c req).dispatched.Header "Content-Type" =
        "application/json") ∧
    Header.Get (sendRequest Do scan c req).dispatched.Header "Accept" = "application/json" ∧
    (∀ k : String, k ≠ "Authorization" → k ≠ "Openai-Organization" → k ≠ "Content-Type" →
      k ≠ "Accept" →
      Header.lookup (sendRequest Do scan c req).dispatched.Header k =
        Header.lookup req.Header k) ∧
    (sendRequest Do scan c req).dispatched.Method = req.Method ∧
    (sendRequest Do scan c req).dispatched.URL = req.URL ∧
    (sendRequest Do scan c req).dispatched.Body = req.Body := by
  rw [sendRequest_dispatched]
  dsimp only
  have L := lookup_sendRequestHeader c req.Header
  refine ⟨?_, ?_, ?_, ?_, ?_, ?_, ?_, ?_, rfl, rfl, rfl⟩
  · rw [L]; simp +decide
  · apply Get_of_lookup _ _ _ _ canonical_Authorization
    rw [L]; simp +decide
  · intro ho
    apply Get_of_lookup _ _ _ _ canonical_Organization
    rw [L]; simp +decide [ho]
  · intro ho
    have e : Header.lookup (sendRequestHeader c req.Header) "Openai-Organization" =
        Header.lookup req.Header "Openai-Organization" := by
      rw [L]; simp +decide [ho]
    exact ⟨e, by simp only [Header.Get, canonical_Organization, e]⟩
  · intro hc
    have e : Header.lookup (sendRequestHeader c req.Header) "Content-Type" =
        Header.lookup req.Header "Content-Type" := by
      rw [L]; simp +decide [hc]
    exact ⟨e, by simp only [Header.Get, canonical_ContentType, e]⟩
  · intro hc
    apply Get_of_lookup _ _ _ _ canonical_ContentType
    rw [L]; simp +decide [hc]
  · apply Get_of_lookup _ _ _ _ canonical_Accept
    rw [L]; simp
  · intro k h1 h2 h3 h4
    rw [L]; simp [h1, h2, h3, h4]

/-- C7, at concrete requests: with the client of the tests, a request that
carries a multipart `Content-Type`, an `X-Trace` header and an old
`Authorization` keeps the first two and gets the organization header; a bare
request gets the JSON `Content-Type`. -/
theorem sendRequest_sets_headers_witness :
    Header.Get (sendRequest (serverDo 200 "") fixtureScan (testClient "http://localhost")
      preparedRequest).dispatched.Header "OpenAI-Organization" = "mock_organization_id" ∧
    Header.Get (sendRequest (serverDo 200 "") fixtureScan (testClient "http://localhost")
      preparedRequest).dispatched.Header "Content-Type" = "multipart/form-data; boundary=b" ∧
    Header.lookup (sendRequest (serverDo 200 "") fixtureScan (testClient "http://localhost")
      preparedRequest).dispatched.Header "X-Trace" = some ["1"] ∧
    Header.Get (sendRequest (serverDo 200 "") fixtureScan (testClient "http://localhost")
      bareRequest).dispatched.Header "Content-Type" = "application/json" :=
  ⟨(sendRequest_sets_headers (serverDo 200 "") fixtureScan (testClient "http://localhost")
      preparedRequest).2.2.1 (by decide),
   ((sendRequest_sets_headers (serverDo 200 "") fixtureScan (testClient "http://localhost")
      preparedRequest).2.2.2.2.1 (by decide)).2,
   (sendRequest_sets_headers (serverDo 200 "") fixtureScan (testClient "http://localhost")
      preparedRequest).2.2.2.2.2.2.2.1 "X-Trace" (by decide) (by decide) (by decide)
      (by decide),
   (sendRequest_sets_headers (serverDo 200 "") fixtureScan (testClient "http://localhost")
      bareRequest).2.2.2.2.2.1 (by decide)⟩

/-- C8, the code at a file upload: whenever the request is built and the file
is read, `UploadFile` hands `sendRequest` a request with the multipart body
and no `Content-Type`, so the request dispatched carries `Content-Type:
application/json`, which is not the multipart content type of the boundary. -/
theorem UploadFile_dispatches_json_content_type
    (Do : HTTPClient → Request → Except GoError Response)
    (scan : String → Except GoError JSON) (decodeFile : String → Except GoError File)
    (boundary : String) (c : Client) (content : String) (purpose : FilePurpose) :
    ∃ r sent, UploadFile Do scan (fun _ => none) decodeFile boundary c (.ok content) purpose =
        .ok r ∧
      r.dispatched = some sent ∧
      sent.Body = some (multipartBody boundary purpose content) ∧
      Header.Get sent.Header "Content-Type" = "application/json" ∧
      Header.Get sent.Header "Content-Type" ≠ FormDataContentType boundary := by
  have hne : "application/json" ≠ FormDataContentType boundary := by
    intro h
    have hd := congrArg String.data h
    simp [FormDataContentType] at hd
  have hsent := sendRequest_dispatched Do scan c
    { Method := "POST", URL := c.config.BaseURL ++ "/files", Header := [],
      Body := some (multipartBody boundary purpose content) }
  have hct : Header.Get (sendRequestHeader c []) "Content-Type" = "application/json" := by
    apply Get_of_lookup _ _ _ _ canonical_ContentType
    rw [lookup_sendRequestHeader]
    simp +decide [Header.Get, Header.lookup]
  have hx := sendRequest_res_xor_err Do scan c
    { Method := "POST", URL := c.config.BaseURL ++ "/files", Header := [],
      Body := some (multipartBody boundary purpose content) }
  unfold UploadFile NewRequest
  dsimp only
  generalize sendRequest Do scan c
    { Method := "POST", URL := c.config.BaseURL ++ "/files", Header := [],
      Body := some (multipartBody boundary purpose content) } = r at hsent hx ⊢
  obtain ⟨d, res, err⟩ := r
  dsimp only at hsent hx ⊢
  subst hsent
  have hct2 : Header.Get (sendRequestHeader c []) "Content-Type" ≠
      FormDataContentType boundary := by
    rw [hct]; exact hne
  cases err with
  | some e1 => exact ⟨_, _, rfl, rfl, rfl, hct, hct2⟩
  | none =>
    cases res with
    | none => simp at hx
    | some rs =>
      dsimp only
      split
      · exact ⟨_, _, rfl, rfl, rfl, hct, hct2⟩
      · exact ⟨_, _, rfl, rfl, rfl, hct, hct2⟩

/-- C9: when the HTTP client returns a response without a transport failure,
`sendRequest` returns a nil response and an error if the status code is not
200, and that same response with a nil error if it is 200; the result never
holds both a response and an error, nor neither. -/
theorem sendRequest_response_or_error (Do : HTTPClient → Request → Except GoError Response)
    (scan : String → Except GoError JSON) (c : Client) (req : Request) (res : Response)
    (h : Do c.client { req with Header := sendRequestHeader c req.Header } = .ok res) :
    (res.StatusCode ≠ 200 →
      (sendRequest Do scan c req).res = none ∧ (sendRequest Do scan c req).err ≠ none) ∧
    (res.StatusCode = 200 →
      (sendRequest Do scan c req).res = some res ∧ (sendRequest Do scan c req).err = none) ∧
    (((sendRequest Do scan c req).res ≠ none ∧ (sendRequest Do scan c req).err = none) ∨
      ((sendRequest Do scan c req).res = none ∧ (sendRequest Do scan c req).err ≠ none)) := by
  refine ⟨?_, ?_, sendRequest_res_xor_err Do scan c req⟩
  · intro hs
    unfold sendRequest
    dsimp only
    rw [h]
    dsimp only
    rw [if_pos hs]
    split <;> simp
  · intro hs
    unfold sendRequest
    dsimp only
    rw [h]
    simp [hs]

/-- C9, at the servers of the tests: a server answering 500 yields no response
and an error, a server answering 200 yields its response and no error. -/
theorem sendRequest_response_or_error_witness :
    ((sendRequest (serverDo 500 invalidStatusBody) fixtureScan (testClient "http://localhost")
        bareRequest).res = none ∧
      (sendRequest (serverDo 500 invalidStatusBody) fixtureScan (testClient "http://localhost")
        bareRequest).err ≠ none) ∧
    ((sendRequest (serverDo 200 "ok") fixtureScan (testClient "http://localhost")
        bareRequest).res =
        some { StatusCode := 200, Body := "ok", RequestURL := "http://localhost/v1/files" } ∧
      (sendRequest (serverDo 200 "ok") fixtureScan (testClient "http://localhost")
        bareRequest).err = none) :=
  ⟨(sendRequest_response_or_error (serverDo 500 invalidStatusBody) fixtureScan
      (testClient "http://localhost") bareRequest
      { StatusCode := 500, Body := invalidStatusBody, RequestURL := "http://localhost/v1/files" }
      rfl).1 (by decide),
   (sendRequest_response_or_error (serverDo 200 "ok") fixtureScan
      (testClient "http://localhost") bareRequest
      { StatusCode := 200, Body := "ok", RequestURL := "http://localhost/v1/files" }
      rfl).2.1 rfl⟩

/-- C10: for a response whose status is not 200, `sendRequest` decodes the body
as `apiError`. When the decode fails, by a syntax error of the scanner or by a
type error such as the one of the body whose member `error` is a string (its
text names the field `apiError.error` and the full struct type of that
field), the error returned is that decode failure; when it succeeds, the error
returned is
the message `api request failed: status Code: <status>, URL: <request URL>,
Error type: <type>, Message: <message>`. No response is returned either way. -/
theorem sendRequest_failed_status_error (Do : HTTPClient → Request → Except GoError Response)
    (scan : String → Except GoError JSON) (c : Client) (req : Request) (res : Response)
    (h : Do c.client { req with Header := sendRequestHeader c req.Header } = .ok res)
    (hs : res.StatusCode ≠ 200) :
    (∀ e, decodeApiError scan res.Body = .error e →
      (sendRequest Do scan c req).res = none ∧ (sendRequest Do scan c req).err = some e) ∧
    (∀ a, decodeApiError scan res.Body = .ok a →
      (sendRequest Do scan c req).res = none ∧
      (sendRequest Do scan c req).err = some (errorf
        ("api request failed: status Code: " ++ Itoa res.StatusCode ++ ", URL: " ++
          res.RequestURL ++ ", Error type: " ++ a.Error.Type_ ++ ", Message: " ++
          a.Error.Message))) ∧
    (∀ e, scan res.Body = .error e → (sendRequest Do scan c req).err = some e) ∧
    (scan res.Body = .ok invalidStatusJSON →
      (sendRequest Do scan c req).err = some (decodeFailure
        ("json: cannot unmarshal string into Go struct field apiError.error of type " ++
          apiErrorBodyType))) := by
  have key : sendRequest Do scan c req =
      match decodeApiError scan res.Body with
      | .error err =>
        { dispatched := { req with Header := sendRequestHeader c req.Header }, res := none,
          err := some err }
      | .ok a =>
        { dispatched := { req with Header := sendRequestHeader c req.Header }, res := none,
          err := some (errorf
            ("api request failed: status Code: " ++ Itoa res.StatusCode ++ ", URL: " ++
              res.RequestURL ++ ", Error type: " ++ a.Error.Type_ ++ ", Message: " ++
              a.Error.Message)) } := by
    unfold sendRequest
    dsimp only
    rw [h]
    dsimp only
    rw [if_pos hs]
  refine ⟨?_, ?_, ?_, ?_⟩
  · intro e he
    rw [key, he]
    exact ⟨rfl, rfl⟩
  · intro a ha
    rw [key, ha]
    exact ⟨rfl, rfl⟩
  · intro e he
    have hd : decodeApiError scan res.Body = .error e := by
      simp [decodeApiError, he]
    rw [key, hd]
  · intro hv
    have hd : decodeApiError scan res.Body = .error (decodeFailure
        ("json: cannot unmarshal string into Go struct field apiError.error of type " ++
          apiErrorBodyType)) := by
      simp only [decodeApiError, hv]
      rfl
    rw [key, hd]

/-- C10, at the servers of the tests: the body of
`newTestClientWithInvalidStatusCode` yields the type error of the decode, and a
well-formed error body yields the composite message. -/
theorem sendRequest_failed_status_error_witness :
    (sendRequest (serverDo 500 invalidStatusBody) fixtureScan (testClient "http://localhost")
      bareRequest).err = some (decodeFailure
        ("json: cannot unmarshal string into Go struct field apiError.error of type " ++
          "struct \x7b Message string \"json:\\\"message\\\"\"; " ++
          "Type string \"json:\\\"type\\\"\"; " ++
          "Param interface \x7b\x7d \"json:\\\"param\\\"\"; " ++
          "Code interface \x7b\x7d \"json:\\\"code\\\"\" \x7d")) ∧
    (sendRequest (serverDo 404 wellFormedErrorBody) fixtureScan (testClient "http://localhost")
      bareRequest).err = some (errorf
        ("api request failed: status Code: 404, URL: http://localhost/v1/files, " ++
          "Error type: invalid_request_error, Message: no such model")) :=
  ⟨(sendRequest_failed_status_error (serverDo 500 invalidStatusBody) fixtureScan
      (testClient "http://localhost") bareRequest
      { StatusCode := 500, Body := invalidStatusBody, RequestURL := "http://localhost/v1/files" }
      rfl (by decide)).2.2.2 rfl,
   ((sendRequest_failed_status_error (serverDo 404 wellFormedErrorBody) fixtureScan
      (testClient "http://localhost") bareRequest
      { StatusCode := 404, Body := wellFormedErrorBody,
        RequestURL := "http://localhost/v1/files" }
      rfl (by decide)).2.1
      { Error := { Message := "no such model", Type_ := "invalid_request_error",
                   Param := none, Code := some (.number "404") } }
      rfl).2⟩

/-- C11 as stated fails: a response with status 201, inside the 2xx range,
is not returned; `sendRequest` takes the error branch, decodes the body as an
error and returns a nil response with the composite error. -/
theorem sendRequest_201_is_failure :
    ¬ (∀ (Do : HTTPClient → Request → Except GoError Response)
        (scan : String → Except GoError JSON) (c : Client) (req : Request) (res : Response),
        Do c.client { req with Header := sendRequestHeader c req.Header } = .ok res →
        200 ≤ res.StatusCode → res.StatusCode ≤ 299 →
        (sendRequest Do scan c req).res = some res ∧ (sendRequest Do scan c req).err = none) := by
  intro hall
  have h := hall (serverDo 201 wellFormedErrorBody) fixtureScan (testClient "http://localhost")
    bareRequest
    { StatusCode := 201, Body := wellFormedErrorBody, RequestURL := "http://localhost/v1/files" }
    rfl (by decide) (by decide)
  exact absurd h.2 (by decide)

/-- C11, amended: `sendRequest` treats a response as a failure exactly when its
status code is not 200. For status 200 it returns the raw response with no
error and the result does not depend on the JSON scanner (no error body is
decoded); for every other status, those from 201 to 299 included, it returns
a nil response and the error that the decode of the body as `apiError`
determines. -/
theorem sendRequest_failure_iff_not_200 (Do : HTTPClient → Request → Except GoError Response)
    (scan : String → Except GoError JSON) (c : Client) (req : Request) (res : Response)
    (h : Do c.client { req with Header := sendRequestHeader c req.Header } = .ok res) :
    (res.StatusCode = 200 →
      (sendRequest Do scan c req).res = some res ∧ (sendRequest Do scan c req).err = none ∧
      ∀ scan2 : String → Except GoError JSON,
        sendRequest Do scan2 c req = sendRequest Do scan c req) ∧
    (res.StatusCode ≠ 200 →
      (sendRequest Do scan c req).res = none ∧
      (sendRequest Do scan c req).err =
        (match decodeApiError scan res.Body with
         | .error e => some e
         | .ok a => some (errorf
            ("api request failed: status Code: " ++ Itoa res.StatusCode ++ ", URL: " ++
              res.RequestURL ++ ", Error type: " ++ a.Error.Type_ ++ ", Message: " ++
              a.Error.Message)))) ∧
    ((200 < res.StatusCode ∧ res.StatusCode ≤ 299) →
      (sendRequest Do scan c req).res = none ∧ (sendRequest Do scan c req).err ≠ none) := by
  have hne : res.StatusCode ≠ 200 →
      (sendRequest Do scan c req).res = none ∧
      (sendRequest Do scan c req).err =
        (match decodeApiError scan res.Body with
         | .error e => some e
         | .ok a => some (errorf
            ("api request failed: status Code: " ++ Itoa res.StatusCode ++ ", URL: " ++
              res.RequestURL ++ ", Error type: " ++ a.Error.Type_ ++ ", Message: " ++
              a.Error.Message))) := by
    intro hs
    unfold sendRequest
    dsimp only
    rw [h]
    dsimp only
    rw [if_pos hs]
    split <;> exact ⟨rfl, rfl⟩
  refine ⟨?_, hne, ?_⟩
  · intro hs
    have e200 : ∀ sc : String → Except GoError JSON, sendRequest Do sc c req =
        { dispatched := { req with Header := sendRequestHeader c req.Header },
          res := some res, err := none } := by
      intro sc
      unfold sendRequest
      dsimp only
      rw [h]
      simp [hs]
    refine ⟨?_, ?_, ?_⟩
    · rw [e200]
    · rw [e200]
    · intro scan2
      rw [e200, e200]
  · rintro ⟨hlt, _⟩
    have hs : res.StatusCode ≠ 200 := by omega
    obtain ⟨h1, h2⟩ := hne hs
    refine ⟨h1, ?_⟩
    rw [h2]
    split <;> simp

/-- C11 amended, at concrete servers: a server answering 204 with an empty body
yields no response and an error, a server answering 200 yields its response
and no error. -/
theorem sendRequest_failure_iff_not_200_witness :
    ((sendRequest (serverDo 204 "") fixtureScan (testClient "http://localhost")
        bareRequest).res = none ∧
      (sendRequest (serverDo 204 "") fixtureScan (testClient "http://localhost")
        bareRequest).err ≠ none) ∧
    (sendRequest (serverDo 200 "ok") fixtureScan (testClient "http://localhost")
        bareRequest).res =
      some { StatusCode := 200, Body := "ok", RequestURL := "http://localhost/v1/files" } :=
  ⟨(sendRequest_failure_iff_not_200 (serverDo 204 "") fixtureScan
      (testClient "http://localhost") bareRequest
      { StatusCode := 204, Body := "", RequestURL := "http://localhost/v1/files" }
      rfl).2.2 ⟨by decide, by decide⟩,
   ((sendRequest_failure_iff_not_200 (serverDo 200 "ok") fixtureScan
      (testClient "http://localhost") bareRequest
      { StatusCode := 200, Body := "ok", RequestURL := "http://localhost/v1/files" }
      rfl).1 rfl).1⟩

end Chatgpt
